import Mathlib

/-!
Verification of the resource-lifecycle client patterns in
`sagemaker_core_overview.ipynb`: the boto3 wait/poll loop, the NextToken
pagination loop, and the notebook-level resource deletion sweep.  Stateful
Python loops are embedded as fuel-indexed recursive functions; a run of the
loop against a control plane is a function from poll index (or request
cursor) to the response the control plane returns.
-/

/-- A `describe_training_job` response as the wait loop reads it: the
`TrainingJobStatus` field is always accessed, and `FailureReason` is accessed
only in the `Failed` branch (an absent key would raise `KeyError` in the
source, so it is modelled as an `Option`). -/
structure DescribeResponse where
  TrainingJobStatus : String
  FailureReason : Option String
deriving DecidableEq, Repr

/-- The terminal status list from the source:
`if status in ["Failed", "Completed", "Stopped"]`. -/
def terminalStatuses : List String := ["Failed", "Completed", "Stopped"]

/-- Membership test used by the wait loop's break condition. -/
def isTerminalStatus (status : String) : Bool := terminalStatuses.contains status

/-- The boto3 wait loop of the notebook, embedded with fuel.  `snap i` is the
response of the `i`-th `describe_training_job` call.  The loop breaks at the
first terminal status, returning that final response together with the number
of describe calls issued; `none` means the fuel ran out before a terminal
status was observed (the source loop would still be running). -/
def waitLoop (snap : Nat → DescribeResponse) : Nat → Nat → Option (DescribeResponse × Nat)
  | 0, _ => none
  | fuel + 1, i =>
    if isTerminalStatus (snap i).TrainingJobStatus then some (snap i, i + 1)
    else waitLoop snap fuel (i + 1)

/-- What the source does after the loop breaks: on `Failed` it prints
`response["FailureReason"]` (a `KeyError` if the key is absent), otherwise it
just exits the loop. -/
inductive BotoWaitResult where
  | exited (finalStatus : String)
  | printedReason (reason : String)
  | keyError
deriving DecidableEq, Repr

/-- The break branch of the source loop applied to the final response. -/
def finishWait (r : DescribeResponse) : BotoWaitResult :=
  if r.TrainingJobStatus = "Failed" then
    match r.FailureReason with
    | some reason => BotoWaitResult.printedReason reason
    | none => BotoWaitResult.keyError
  else BotoWaitResult.exited r.TrainingJobStatus

/-- A complete run of the wait cell: the loop followed by the break branch. -/
def waitRun (snap : Nat → DescribeResponse) (fuel : Nat) : Option BotoWaitResult :=
  (waitLoop snap fuel 0).map (fun p => finishWait p.1)

/-- If the `n`-th snapshot is the first terminal one at or after the start
index `i`, the loop stops there with `n + 1` describe calls, given enough
fuel. -/
lemma waitLoop_reaches (snap : Nat → DescribeResponse) :
    ∀ fuel i n, i ≤ n → n < i + fuel →
    isTerminalStatus (snap n).TrainingJobStatus = true →
    (∀ m, i ≤ m → m < n → isTerminalStatus (snap m).TrainingJobStatus = false) →
    waitLoop snap fuel i = some (snap n, n + 1) := by
  intro fuel
  induction fuel with
  | zero => intro i n h1 h2 _ _; omega
  | succ f ih =>
    intro i n h1 h2 hterm hmin
    by_cases hin : i = n
    · subst hin
      simp [waitLoop, hterm]
    · have hlt : i < n := lt_of_le_of_ne h1 hin
      have hni : isTerminalStatus (snap i).TrainingJobStatus = false :=
        hmin i le_rfl hlt
      simp only [waitLoop, hni, Bool.false_eq_true, if_false]
      exact ih (i + 1) n hlt (by omega) hterm (fun m hm1 hm2 => hmin m (by omega) hm2)

/-- If the loop ever returns, some snapshot was terminal. -/
lemma waitLoop_some_terminal (snap : Nat → DescribeResponse) :
    ∀ fuel i out, waitLoop snap fuel i = some out →
    ∃ n, isTerminalStatus (snap n).TrainingJobStatus = true := by
  intro fuel
  induction fuel with
  | zero => intro i out h; simp [waitLoop] at h
  | succ f ih =>
    intro i out h
    by_cases hi : isTerminalStatus (snap i).TrainingJobStatus = true
    · exact ⟨i, hi⟩
    · simp only [waitLoop, hi, if_false] at h
      exact ih (i + 1) out h

/-- If no snapshot is ever terminal, the loop never returns, whatever the
fuel. -/
lemma waitLoop_diverges (snap : Nat → DescribeResponse)
    (h : ∀ n, isTerminalStatus (snap n).TrainingJobStatus = false) :
    ∀ fuel i, waitLoop snap fuel i = none := by
  intro fuel
  induction fuel with
  | zero => intro i; simp [waitLoop]
  | succ f ih =>
    intro i
    simp only [waitLoop, h i, Bool.false_eq_true, if_false]
    exact ih (i + 1)

/-- C1: the wait loop is a blocking poll over `describe_training_job`
snapshots that returns exactly on a terminal status (`Failed`, `Completed`,
`Stopped`): for every snapshot sequence, the loop terminates (some fuel
suffices) iff some snapshot is terminal, and when `n` is the first terminal
index it stops at that snapshot, after exactly `n + 1` describe calls. -/
theorem C1_wait_terminates_iff_terminal (snap : Nat → DescribeResponse) :
    ((∃ n, isTerminalStatus (snap n).TrainingJobStatus = true) ↔
      (∃ fuel out, waitLoop snap fuel 0 = some out)) ∧
    (∀ n, isTerminalStatus (snap n).TrainingJobStatus = true →
      (∀ m, m < n → isTerminalStatus (snap m).TrainingJobStatus = false) →
      ∀ fuel, n < fuel → waitLoop snap fuel 0 = some (snap n, n + 1)) := by
  constructor
  · constructor
    · intro hex
      have hfind := Nat.find_spec hex
      refine ⟨Nat.find hex + 1, (snap (Nat.find hex), Nat.find hex + 1), ?_⟩
      exact waitLoop_reaches snap (Nat.find hex + 1) 0 (Nat.find hex)
        (Nat.zero_le _) (by omega) hfind
        (fun m _ hm => by
          have := Nat.find_min hex hm
          exact Bool.not_eq_true _ ▸ by simpa using this)
    · rintro ⟨fuel, out, h⟩
      exact waitLoop_some_terminal snap fuel 0 out h
  · intro n hterm hmin fuel hfuel
    exact waitLoop_reaches snap fuel 0 n (Nat.zero_le _) (by omega) hterm
      (fun m _ hm => hmin m hm)

/-- A concrete snapshot sequence for the C1 witness: two `InProgress` polls
followed by `Completed`. -/
def snapC1w : Nat → DescribeResponse :=
  fun i => if i < 2 then ⟨"InProgress", none⟩ else ⟨"Completed", none⟩

/-- Witness for C1 at a concrete run: the loop stops at the third snapshot,
the first terminal one, after exactly three describe calls. -/
theorem C1_witness : waitLoop snapC1w 5 0 = some (snapC1w 2, 3) :=
  (C1_wait_terminates_iff_terminal snapC1w).2 2 (by decide) (by decide) 5 (by decide)

/-- C2 as stated fails on the code: the loop surfaces
`response["FailureReason"]` verbatim and enforces no non-emptiness, so a
`Failed` snapshot carrying an empty reason string is surfaced empty.  This
concrete run observes `Failed` as its first terminal status yet the surfaced
reason has length zero. -/
theorem C2_counterexample :
    waitRun (fun _ => ⟨"Failed", some ""⟩) 1 =
      some (BotoWaitResult.printedReason "") ∧ String.length "" = 0 := by
  constructor
  · rfl
  · rfl

/-- C2 (amended): when the loop stops at a `Failed` snapshot whose
`FailureReason` key holds `reason`, the run surfaces exactly that string —
never a silent success — so the surfaced reason is non-empty precisely when
the snapshot's stored reason is. -/
theorem C2_failed_reason_surfaced (snap : Nat → DescribeResponse)
    (fuel : Nat) (r : DescribeResponse) (k : Nat) (reason : String)
    (h : waitLoop snap fuel 0 = some (r, k))
    (hf : r.TrainingJobStatus = "Failed")
    (hr : r.FailureReason = some reason) :
    waitRun snap fuel = some (BotoWaitResult.printedReason reason) ∧
      ∀ s, waitRun snap fuel ≠ some (BotoWaitResult.exited s) := by
  have hrun : waitRun snap fuel = some (finishWait r) := by
    simp [waitRun, h]
  have hfin : finishWait r = BotoWaitResult.printedReason reason := by
    simp [finishWait, hf, hr]
  rw [hrun, hfin]
  exact ⟨rfl, fun s hcontra => by simp at hcontra⟩

/-- A concrete failing run for the C2 witness. -/
def snapC2w : Nat → DescribeResponse :=
  fun i => if i = 0 then ⟨"InProgress", none⟩ else ⟨"Failed", some "AlgorithmError: bad input"⟩

/-- Witness for the amended C2: a run that reaches `Failed` surfaces the
stored reason string verbatim. -/
theorem C2_witness :
    waitRun snapC2w 3 = some (BotoWaitResult.printedReason "AlgorithmError: bad input") ∧
      ∀ s, waitRun snapC2w 3 ≠ some (BotoWaitResult.exited s) :=
  C2_failed_reason_surfaced snapC2w 3 ⟨"Failed", some "AlgorithmError: bad input"⟩ 2
    "AlgorithmError: bad input" (by decide) rfl rfl

/-- C5: on a snapshot sequence that is `InProgress` for the first `k` polls
and `Completed` at poll `k`, the loop returns without error and issues
exactly `k + 1` describe calls — the minimal number needed to observe the
terminal state, with no describe call after the first terminal snapshot. -/
theorem C5_wait_minimal_polls (snap : Nat → DescribeResponse) (k : Nat)
    (h1 : ∀ i, i < k → (snap i).TrainingJobStatus = "InProgress")
    (h2 : (snap k).TrainingJobStatus = "Completed") :
    ∀ fuel, k < fuel →
      waitLoop snap fuel 0 = some (snap k, k + 1) ∧
      waitRun snap fuel = some (BotoWaitResult.exited "Completed") := by
  intro fuel hfuel
  have hterm : isTerminalStatus (snap k).TrainingJobStatus = true := by
    rw [h2]; rfl
  have hmin : ∀ m, 0 ≤ m → m < k →
      isTerminalStatus (snap m).TrainingJobStatus = false := by
    intro m _ hm
    rw [h1 m hm]; rfl
  have hloop := waitLoop_reaches snap fuel 0 k (Nat.zero_le _) (by omega) hterm hmin
  refine ⟨hloop, ?_⟩
  have hfin : finishWait (snap k) = BotoWaitResult.exited "Completed" := by
    simp [finishWait, h2]
  simp [waitRun, hloop, hfin]

/-- A concrete snapshot sequence for the C5 witness: one `InProgress` poll,
then `Completed`. -/
def snapC5w : Nat → DescribeResponse :=
  fun i => if i < 1 then ⟨"InProgress", none⟩ else ⟨"Completed", none⟩

/-- Witness for C5 at a concrete run: two describe calls, the minimum. -/
theorem C5_witness :
    waitLoop snapC5w 3 0 = some (snapC5w 1, 2) ∧
      waitRun snapC5w 3 = some (BotoWaitResult.exited "Completed") :=
  C5_wait_minimal_polls snapC5w 1 (by decide) (by decide) 3 (by decide)

/-- A `list_training_jobs` response as the pagination loop reads it:
`TrainingJobSummaries` is iterated, and `response.get("NextToken")` yields
`none` when the key is absent. -/
structure ListTrainingJobsResponse (α : Type) where
  TrainingJobSummaries : List α
  NextToken : Option String
deriving DecidableEq, Repr

/-- Python truthiness of the `next_token` variable: `None` and the empty
string are falsy, every other string is truthy. -/
def pyTruthy : Option String → Bool
  | none => false
  | some s => !(s == "")

/-- The boto3 NextToken pagination loop of the notebook, embedded with fuel.
`plane req` is the control plane's response to a `list_training_jobs` call
whose `NextToken` parameter is `req` (`none` when the parameter is omitted).
The result is the trace of (request token, response) pairs of the run, one
pair per underlying list call, in order; `none` means the fuel ran out.
Faithful to the source: the call carries `NextToken` only when the current
`next_token` is truthy, and the loop breaks when `response.get("NextToken")`
is falsy. -/
def listLoop (plane : Option String → ListTrainingJobsResponse α) :
    Nat → Option String → Option (List (Option String × ListTrainingJobsResponse α))
  | 0, _ => none
  | fuel + 1, tok =>
    let req := if pyTruthy tok then tok else none
    let resp := plane req
    if pyTruthy resp.NextToken then
      match listLoop plane fuel resp.NextToken with
      | none => none
      | some rest => some ((req, resp) :: rest)
    else some [(req, resp)]

/-- The items a run yields, in page order. -/
def listItems (trace : List (Option String × ListTrainingJobsResponse α)) : List α :=
  trace.flatMap (fun pr => pr.2.TrainingJobSummaries)

/-- A control plane with three pages of 2, 2 and 1 items, cursors on the
first two responses and none on the third. -/
def planeC3 : Option String → ListTrainingJobsResponse String
  | none => ⟨["job1", "job2"], some "tokenA"⟩
  | some "tokenA" => ⟨["job3", "job4"], some "tokenB"⟩
  | some "tokenB" => ⟨["job5"], none⟩
  | some _ => ⟨[], none⟩

/-- The trace the pagination loop produces against `planeC3`. -/
def traceC3 : List (Option String × ListTrainingJobsResponse String) :=
  [(none, ⟨["job1", "job2"], some "tokenA"⟩),
   (some "tokenA", ⟨["job3", "job4"], some "tokenB"⟩),
   (some "tokenB", ⟨["job5"], none⟩)]

/-- C3: against a control plane returning three pages of 2/2/1 items (with
cursors on the first two responses and none on the third), the pagination
loop yields exactly 5 items in page order and issues exactly 3 underlying
list calls. -/
theorem C3_three_pages_five_items :
    listLoop planeC3 10 none = some traceC3 ∧
      listItems traceC3 = ["job1", "job2", "job3", "job4", "job5"] ∧
      traceC3.length = 3 := by
  refine ⟨?_, ?_, ?_⟩ <;> rfl

/-- A control plane with an empty collection: zero items and no cursor. -/
def planeC7 : Option String → ListTrainingJobsResponse String :=
  fun _ => ⟨[], none⟩

/-- C7: against a control plane whose first list response has zero items and
no cursor, the pagination loop yields zero items and issues exactly one
underlying list call. -/
theorem C7_empty_collection :
    listLoop planeC7 5 none = some [(none, ⟨[], none⟩)] ∧
      listItems [((none : Option String), (⟨[], none⟩ : ListTrainingJobsResponse String))] = [] := by
  exact ⟨rfl, rfl⟩

/-- The relation between consecutive (request, response) pairs of a
pagination trace: the later request carries exactly the cursor of the
earlier response, and that cursor was truthy (which is why the loop
continued). -/
def nextReqRel (p q : Option String × ListTrainingJobsResponse α) : Prop :=
  q.1 = p.2.NextToken ∧ pyTruthy p.2.NextToken = true

/-- Structure of every pagination trace, generalized over the starting
token: the first request is the starting token if truthy and absent
otherwise, consecutive pairs satisfy `nextReqRel`, and the final response's
cursor is falsy. -/
lemma listLoop_trace (plane : Option String → ListTrainingJobsResponse α) :
    ∀ fuel tok trace, listLoop plane fuel tok = some trace →
      (∃ hd tl, trace = hd :: tl ∧ hd.1 = (if pyTruthy tok then tok else none)) ∧
      List.Chain' nextReqRel trace ∧
      (∀ last, trace.getLast? = some last → pyTruthy last.2.NextToken = false) := by
  intro fuel
  induction fuel with
  | zero => intro tok trace h; simp [listLoop] at h
  | succ f ih =>
    intro tok trace h
    simp only [listLoop] at h
    by_cases hnt : pyTruthy (plane (if pyTruthy tok then tok else none)).NextToken = true
    · rw [if_pos hnt] at h
      cases hrest : listLoop plane f (plane (if pyTruthy tok then tok else none)).NextToken with
      | none => rw [hrest] at h; simp at h
      | some rest =>
        rw [hrest] at h
        simp only [Option.some.injEq] at h
        obtain ⟨⟨hd', tl', hrest_eq, hhd'⟩, hchain, hlast⟩ := ih _ rest hrest
        refine ⟨⟨_, rest, h.symm, rfl⟩, ?_, ?_⟩
        · subst hrest_eq
          rw [← h]
          refine List.Chain'.cons ?_ hchain
          exact ⟨by rw [hhd', if_pos hnt], hnt⟩
        · intro last hl
          rw [← h] at hl
          subst hrest_eq
          rw [List.getLast?_cons_cons] at hl
          exact hlast last hl
    · rw [if_neg hnt] at h
      simp only [Option.some.injEq] at h
      refine ⟨⟨_, [], h.symm, rfl⟩, ?_, ?_⟩
      · rw [← h]; simp [List.chain'_singleton]
      · intro last hl
        rw [← h] at hl
        simp only [List.getLast?_singleton, Option.some.injEq] at hl
        rw [← hl]
        exact Bool.not_eq_true _ ▸ hnt

/-- C4 as stated fails on the code: the break condition is Python truthiness
(`if not next_token`), so a response carrying the empty-string cursor
`some ""` also stops the loop even though a cursor is present (and even
though the control plane has a further page behind that cursor).  This
control plane answers the cursorless call with one item and cursor `""`, yet
the run stops after a single list call. -/
theorem C4_counterexample :
    listLoop (fun req => if req = none then ⟨["a"], some ""⟩ else ⟨["b"], none⟩) 5 none =
      some [((none : Option String),
        (⟨["a"], some ""⟩ : ListTrainingJobsResponse String))] ∧
      (some "" : Option String) ≠ none := by
  exact ⟨rfl, by simp⟩

/-- C4 (amended): in every terminating run of the pagination loop the first
list call carries no cursor, every subsequent list call carries exactly the
cursor of the immediately preceding response (which was truthy, i.e.
present and non-empty), and the loop stops requesting further pages
precisely when a response's cursor is falsy — absent or the empty string —
rather than exactly when it is absent. -/
theorem C4_pagination_invariants (α : Type)
    (plane : Option String → ListTrainingJobsResponse α) (fuel : Nat)
    (trace : List (Option String × ListTrainingJobsResponse α))
    (h : listLoop plane fuel none = some trace) :
    (∃ hd tl, trace = hd :: tl ∧ hd.1 = none) ∧
      List.Chain' nextReqRel trace ∧
      (∀ last, trace.getLast? = some last → pyTruthy last.2.NextToken = false) := by
  obtain ⟨⟨hd, tl, htr, hhd⟩, hchain, hlast⟩ := listLoop_trace plane fuel none trace h
  exact ⟨⟨hd, tl, htr, by simpa [pyTruthy] using hhd⟩, hchain, hlast⟩

/-- A two-page control plane for the C4 witness. -/
def planeC4w : Option String → ListTrainingJobsResponse String
  | none => ⟨["p"], some "cur1"⟩
  | some _ => ⟨["q"], none⟩

/-- The trace the pagination loop produces against `planeC4w`. -/
def traceC4w : List (Option String × ListTrainingJobsResponse String) :=
  [(none, ⟨["p"], some "cur1"⟩), (some "cur1", ⟨["q"], none⟩)]

/-- Witness for the amended C4 at a concrete two-page run. -/
theorem C4_witness :
    (∃ hd tl, traceC4w = hd :: tl ∧ hd.1 = none) ∧
      List.Chain' nextReqRel traceC4w ∧
      (∀ last, traceC4w.getLast? = some last → pyTruthy last.2.NextToken = false) :=
  C4_pagination_invariants String planeC4w 5 traceC4w (by rfl)

/-- The externally visible actions of one iteration of the wait loop: a
`describe_training_job` call (with its poll index) or a `time.sleep` of the
given number of seconds. -/
inductive WaitEvent where
  | describeCall (i : Nat)
  | sleep (seconds : Nat)
deriving DecidableEq, Repr

/-- The wait loop again, this time recording its action trace.  Each
non-terminal iteration performs a describe call and then `time.sleep(5)`;
the terminal iteration performs only the final describe call and breaks. -/
def waitTrace (snap : Nat → DescribeResponse) : Nat → Nat → Option (List WaitEvent)
  | 0, _ => none
  | fuel + 1, i =>
    if isTerminalStatus (snap i).TrainingJobStatus then
      some [WaitEvent.describeCall i]
    else
      match waitTrace snap fuel (i + 1) with
      | none => none
      | some rest => some (WaitEvent.describeCall i :: WaitEvent.sleep 5 :: rest)

/-- Positional characterization of every terminating wait trace, generalized
over the start index: events at even positions are the describe calls, in
order, and events at odd positions are sleeps of 5 seconds. -/
lemma waitTrace_shape (snap : Nat → DescribeResponse) :
    ∀ fuel i trace, waitTrace snap fuel i = some trace →
      ∃ n, trace.length = 2 * n + 1 ∧
        ∀ k, k < 2 * n + 1 →
          trace.get? k = some (if k % 2 = 0 then WaitEvent.describeCall (i + k / 2)
            else WaitEvent.sleep 5) := by
  intro fuel
  induction fuel with
  | zero => intro i trace h; simp [waitTrace] at h
  | succ f ih =>
    intro i trace h
    simp only [waitTrace] at h
    by_cases hterm : isTerminalStatus (snap i).TrainingJobStatus = true
    · rw [if_pos hterm] at h
      simp only [Option.some.injEq] at h
      refine ⟨0, by rw [← h]; rfl, ?_⟩
      intro k hk
      interval_cases k
      rw [← h]
      rfl
    · rw [if_neg hterm] at h
      cases hrest : waitTrace snap f (i + 1) with
      | none => rw [hrest] at h; simp at h
      | some rest =>
        rw [hrest] at h
        simp only [Option.some.injEq] at h
        obtain ⟨n, hlen, hchar⟩ := ih (i + 1) rest hrest
        refine ⟨n + 1, ?_, ?_⟩
        · rw [← h]
          simp only [List.length_cons, hlen]
          omega
        · intro k hk
          match k with
          | 0 => rw [← h]; rfl
          | 1 => rw [← h]; rfl
          | k' + 2 =>
            have hget : trace.get? (k' + 2) = rest.get? k' := by rw [← h]; rfl
            rw [hget, hchar k' (by omega)]
            have hmod : (k' + 2) % 2 = k' % 2 := by omega
            have hdiv : (k' + 2) / 2 = k' / 2 + 1 := by omega
            rw [hmod, hdiv]
            by_cases hpar : k' % 2 = 0
            · rw [if_pos hpar, if_pos hpar]
              have harith : i + 1 + k' / 2 = i + (k' / 2 + 1) := by omega
              rw [harith]
            · rw [if_neg hpar, if_neg hpar]

/-- C8: the wait loop never busy-loops.  In every terminating run the action
trace has odd length `2n + 1` with describe calls exactly at the even
positions and a `time.sleep` of 5 seconds (a positive duration) at every odd
position, so a positive delay separates any two consecutive describe calls;
the final event, at position `2n`, is the terminal describe call, so no
delay follows the final, terminal observation. -/
theorem C8_no_busy_loop (snap : Nat → DescribeResponse) (fuel : Nat)
    (trace : List WaitEvent) (h : waitTrace snap fuel 0 = some trace) :
    ∃ n, trace.length = 2 * n + 1 ∧
      (∀ k, k < 2 * n + 1 →
        trace.get? k = some (if k % 2 = 0 then WaitEvent.describeCall (k / 2)
          else WaitEvent.sleep 5)) ∧
      trace.getLast? = some (WaitEvent.describeCall n) ∧ 0 < 5 := by
  obtain ⟨n, hlen, hchar⟩ := waitTrace_shape snap fuel 0 trace h
  refine ⟨n, hlen, fun k hk => by simpa using hchar k hk, ?_, by omega⟩
  have hlast : trace.getLast? = trace.get? (trace.length - 1) := by
    rw [List.getLast?_eq_getElem?, List.get?_eq_getElem?]
  rw [hlast, hlen]
  have h2n : 2 * n + 1 - 1 = 2 * n := by omega
  rw [h2n]
  have := hchar (2 * n) (by omega)
  simpa using this

/-- A concrete snapshot sequence for the C8 witness: one `InProgress` poll,
then `Stopped`. -/
def snapC8w : Nat → DescribeResponse :=
  fun i => if i = 0 then ⟨"InProgress", none⟩ else ⟨"Stopped", none⟩

/-- Witness for C8 at a concrete run: describe, sleep 5, describe. -/
theorem C8_witness :
    ∃ n, ([WaitEvent.describeCall 0, WaitEvent.sleep 5,
        WaitEvent.describeCall 1] : List WaitEvent).length = 2 * n + 1 ∧
      (∀ k, k < 2 * n + 1 →
        ([WaitEvent.describeCall 0, WaitEvent.sleep 5,
          WaitEvent.describeCall 1] : List WaitEvent).get? k =
          some (if k % 2 = 0 then WaitEvent.describeCall (k / 2)
            else WaitEvent.sleep 5)) ∧
      ([WaitEvent.describeCall 0, WaitEvent.sleep 5,
        WaitEvent.describeCall 1] : List WaitEvent).getLast? =
        some (WaitEvent.describeCall n) ∧ 0 < 5 :=
  C8_no_busy_loop snapC8w 3
    [WaitEvent.describeCall 0, WaitEvent.sleep 5, WaitEvent.describeCall 1] (by decide)

/-- Outcome of the SageMakerCore SDK `wait()` per the spec's error taxonomy. -/
inductive SdkWaitResult where
  | succeeded (finalStatus : String)
  | failedWithReason (reason : Option String)
  | timeoutError
deriving DecidableEq, Repr

/-- Modelled from the spec: the body of the SageMakerCore `TrainingJob.wait()`
method is not part of this repository — the notebook only calls
`training_job.wait()`.  Per the spec, `wait(handle, poll_interval, timeout?)`
repeatedly refreshes the handle, returns when the status is terminal
(surfacing the failure reason on `Failed`), and fails with `TimeoutError`
when the configured bound is exceeded before a terminal state.  `budget` is
the number of refresh calls the configured timeout and poll interval allow
before the bound is exceeded. -/
def sdkWait (snap : Nat → DescribeResponse) : Nat → Nat → SdkWaitResult
  | 0, _ => SdkWaitResult.timeoutError
  | budget + 1, i =>
    if isTerminalStatus (snap i).TrainingJobStatus then
      if (snap i).TrainingJobStatus = "Failed" then
        SdkWaitResult.failedWithReason (snap i).FailureReason
      else SdkWaitResult.succeeded (snap i).TrainingJobStatus
    else sdkWait snap budget (i + 1)

/-- `sdkWait` times out from any start index when no snapshot within the
budget window is terminal. -/
lemma sdkWait_timeout (snap : Nat → DescribeResponse) :
    ∀ budget i, (∀ j, i ≤ j → j < i + budget →
      isTerminalStatus (snap j).TrainingJobStatus = false) →
    sdkWait snap budget i = SdkWaitResult.timeoutError := by
  intro budget
  induction budget with
  | zero => intro i _; rfl
  | succ b ih =>
    intro i hall
    have hi : isTerminalStatus (snap i).TrainingJobStatus = false :=
      hall i le_rfl (by omega)
    simp only [sdkWait, hi, Bool.false_eq_true, if_false]
    exact ih (i + 1) (fun j hj1 hj2 => hall j (by omega) (by omega))

/-- C6: when a timeout is configured and the corresponding poll budget is
exhausted before any terminal status is observed, `wait()` returns
`TimeoutError` — it neither keeps polling past the bound nor reports
success. -/
theorem C6_wait_timeout (snap : Nat → DescribeResponse) (budget : Nat)
    (h : ∀ j, j < budget → isTerminalStatus (snap j).TrainingJobStatus = false) :
    sdkWait snap budget 0 = SdkWaitResult.timeoutError ∧
      ∀ s, sdkWait snap budget 0 ≠ SdkWaitResult.succeeded s := by
  have htimeout := sdkWait_timeout snap budget 0
    (fun j _ hj2 => h j (by omega))
  exact ⟨htimeout, fun s hcontra => by rw [htimeout] at hcontra; simp at hcontra⟩

/-- A snapshot sequence that never reaches a terminal status, for the C6
witness. -/
def snapC6w : Nat → DescribeResponse :=
  fun _ => ⟨"InProgress", none⟩

/-- Witness for C6: a three-poll budget against an always-`InProgress`
resource times out. -/
theorem C6_witness :
    sdkWait snapC6w 3 0 = SdkWaitResult.timeoutError ∧
      ∀ s, sdkWait snapC6w 3 0 ≠ SdkWaitResult.succeeded s :=
  C6_wait_timeout snapC6w 3 (by decide)

/-- A `describe_training_job` response carrying the job's identifying name,
as read back after a create. -/
structure DescribeNamedResponse (α : Type) where
  TrainingJobName : String
  jobSpec : α
deriving DecidableEq, Repr

/-- Modelled from the spec: the control plane's job registry is not part of
this repository — the notebook issues `create_training_job(TrainingJobName=
job_name, ...)` and `describe_training_job(TrainingJobName=job_name)`
against the remote service.  Per the spec, `create(spec)` records the
resource under its name and returns a handle usable immediately; the
registry maps names to the recorded creation specs. -/
def create_training_job (registry : List (String × α)) (name : String) (spec : α) :
    List (String × α) × String :=
  ((name, spec) :: registry, name)

/-- Modelled from the spec: `get(name)` fetches the current snapshot of an
existing resource by name, failing (here: `none`) when the name is unknown
to the control plane. -/
def describe_training_job (registry : List (String × α)) (name : String) :
    Option (DescribeNamedResponse α) :=
  match registry.lookup name with
  | some spec => some ⟨name, spec⟩
  | none => none

/-- C9: fetching a resource by the name used at creation returns a snapshot
whose identifying name equals that creation name: describing the name
returned by `create_training_job` succeeds and yields a snapshot whose
`TrainingJobName` equals the name supplied in the creation spec. -/
theorem C9_get_create_roundtrip (α : Type) (registry : List (String × α))
    (name : String) (spec : α) :
    ∃ out, describe_training_job (create_training_job registry name spec).1
        (create_training_job registry name spec).2 = some out ∧
      out.TrainingJobName = name := by
  refine ⟨⟨name, spec⟩, ?_, rfl⟩
  simp [describe_training_job, create_training_job, List.lookup]

/-- A Python object as the deletion sweep inspects it: whether it has a
`delete` attribute, its class's `__module__`, and an identity to tell
distinct objects apart. -/
structure PyObject where
  hasDelete : Bool
  classModule : String
  oid : Nat
deriving DecidableEq, Repr

/-- The value of `locals()` inside `delete_all_sagemaker_resources` at the
point it is evaluated: the function takes no parameters and the `locals()`
call occurs in the right-hand side of the first assignment of the body,
before any local name is bound (the comprehension variable lives in the
comprehension's own scope), so the function's local namespace is empty. -/
def functionBodyLocals : List PyObject := []

/-- The notebook's deletion sweep:
`all_objects = list(locals().values()) + list(globals().values())` followed
by the filter on `hasattr(obj, "delete")` and
`obj.__class__.__module__ == "sagemaker_core.main.resources"`.  The result
is the list of objects whose `delete()` method the final loop invokes, in
order. -/
def delete_all_sagemaker_resources (globalsEnv : List PyObject) : List PyObject :=
  let all_objects := functionBodyLocals ++ globalsEnv
  all_objects.filter
    (fun obj => obj.hasDelete && obj.classModule == "sagemaker_core.main.resources")

/-- C10: because `locals()` evaluates in the function's own empty local
scope, every object the sweep deletes comes from the global namespace, and
an object bound only in some other (non-global) scope is never passed to
`delete()`, despite the sweep nominally covering local and global
variables. -/
theorem C10_sweep_only_globals (globalsEnv callerScope : List PyObject) :
    (∀ o, o ∈ delete_all_sagemaker_resources globalsEnv → o ∈ globalsEnv) ∧
      (∀ o, o ∈ callerScope → o ∉ globalsEnv →
        o ∉ delete_all_sagemaker_resources globalsEnv) := by
  constructor
  · intro o ho
    have := List.mem_of_mem_filter ho
    simpa [functionBodyLocals] using this
  · intro o _ hnotg hmem
    exact hnotg (by simpa [functionBodyLocals] using List.mem_of_mem_filter hmem)

/-- A deletable resource object bound to a global variable. -/
def globalResource : PyObject := ⟨true, "sagemaker_core.main.resources", 0⟩

/-- A deletable resource object bound only in a non-global local scope. -/
def localOnlyResource : PyObject := ⟨true, "sagemaker_core.main.resources", 1⟩

/-- Witness for C10: with one deletable resource in globals and another
bound only in a caller's local scope, the sweep never deletes the
local-only one. -/
theorem C10_witness :
    localOnlyResource ∉ delete_all_sagemaker_resources [globalResource] :=
  (C10_sweep_only_globals [globalResource] [localOnlyResource]).2
    localOnlyResource (by decide) (by decide)
